import Mathlib

/-!
Shallow embedding of the ffmpeg-api HTTP service (src/server.js).

The service exposes two conversion endpoints:

* `POST /convert`       — multipart upload, binary audio response;
* `POST /convert-base64` — JSON body with a base64 `audio` field, JSON response.

Both write the input to a temp file under `/tmp`, invoke the external
`ffmpeg` tool synchronously, read the produced output file back, respond,
and finally delete both temp files.  The external tool is modelled as an
opaque deterministic function from (input bytes, codec-argument string) to
either an error message (non-zero exit) or an optional output-file content
(`none` models an exit-0 run that produced no output file, which makes the
subsequent file read fail).  The file system is modelled as an association
list from paths to byte lists; bytes are naturals (< 256 for real buffers).
-/

/-- JavaScript `v || d` on an optional string: `undefined` and the empty
string are falsy, so both fall back to the default. -/
def jsOr (v : Option String) (d : String) : String :=
  match v with
  | none => d
  | some s => if s = "" then d else s

/-- JavaScript destructuring default `{ x = d }`: applies only when the
field is absent (`undefined`); an empty string is kept as-is. -/
def jsDefault (v : Option String) (d : String) : String :=
  match v with
  | none => d
  | some s => s

/-- The allowed target formats checked by `/convert` (server.js line 21). -/
def allowedFormats : List String := ["ogg", "mp3", "opus", "m4a", "aac"]

/-- The fixed invalid-format error message (server.js line 22). -/
def invalidFormatMsg : String := "Invalid format. Supported: ogg, mp3, opus, m4a, aac"

/-- A word character in the sense of the JavaScript regex class `\w`
(ASCII letters, digits, underscore). -/
def isWordChar (c : Char) : Bool := c.isAlphanum || c = '_'

/-- The trailing-extension extractor, modelling
`originalname.match(/\.(\w+)$/)` (server.js line 33): the maximal trailing
run of word characters, provided it is non-empty and immediately preceded
by a dot; otherwise the empty string (no match). -/
def trailingExt (name : String) : String :=
  let rev := name.data.reverse
  let run := rev.takeWhile isWordChar
  if run.isEmpty then ""
  else
    match rev.dropWhile isWordChar with
    | '.' :: _ => String.mk run.reverse
    | _ => ""

/-- The keys of the static MIME-to-extension table (server.js lines 37-50). -/
def mimeKeys : List String :=
  ["audio/mpeg", "audio/mp3", "audio/wav", "audio/wave", "audio/x-wav",
   "audio/ogg", "audio/flac", "audio/aac", "audio/mp4", "audio/x-m4a",
   "audio/webm", "video/webm"]

/-- The static MIME-to-extension table with its JavaScript
`mimeToExt[mimetype] || ''` fallback (server.js lines 37-51). -/
def mimeToExt (m : String) : String :=
  if m = "audio/mpeg" then "mp3"
  else if m = "audio/mp3" then "mp3"
  else if m = "audio/wav" then "wav"
  else if m = "audio/wave" then "wav"
  else if m = "audio/x-wav" then "wav"
  else if m = "audio/ogg" then "ogg"
  else if m = "audio/flac" then "flac"
  else if m = "audio/aac" then "aac"
  else if m = "audio/mp4" then "m4a"
  else if m = "audio/x-m4a" then "m4a"
  else if m = "audio/webm" then "webm"
  else if m = "video/webm" then "webm"
  else ""

/-- Input-extension resolution in `/convert` (server.js lines 31-52):
filename trailing extension first (if `originalname` is truthy and the
regex matches), then the MIME table (if still empty and `mimetype` is
truthy), else the empty extension. -/
def resolveInputExt (originalname mimetype : String) : String :=
  let e := if originalname ≠ "" then trailingExt originalname else ""
  if e = "" then (if mimetype ≠ "" then mimeToExt mimetype else e) else e

/-- Codec-argument construction of `/convert` (server.js lines 60-77). -/
def codecArgs (format bitrate : String) : String :=
  if format = "mp3" then "-c:a libmp3lame -b:a " ++ bitrate
  else if format = "ogg" then "-c:a libvorbis -b:a " ++ bitrate
  else if format = "opus" then "-c:a libopus -b:a " ++ bitrate
  else if format = "m4a" ∨ format = "aac" then "-c:a aac -b:a " ++ bitrate
  else "-c:a libvorbis -b:a " ++ bitrate

/-- Codec-argument construction of `/convert-base64` (server.js lines
145-155): only `mp3` and `ogg` have cases; everything else hits the
default. -/
def codecArgsB64 (format bitrate : String) : String :=
  if format = "mp3" then "-c:a libmp3lame -b:a " ++ bitrate
  else if format = "ogg" then "-c:a libvorbis -b:a " ++ bitrate
  else "-c:a libvorbis -b:a " ++ bitrate

/-- Encoder selected by the `/convert` codec switch, as a table. -/
def encoderOf (format : String) : String :=
  if format = "mp3" then "libmp3lame"
  else if format = "ogg" then "libvorbis"
  else if format = "opus" then "libopus"
  else if format = "m4a" ∨ format = "aac" then "aac"
  else "libvorbis"

/-- Encoder selected by the `/convert-base64` codec switch, as a table. -/
def encoderB64Of (format : String) : String :=
  if format = "mp3" then "libmp3lame" else "libvorbis"

/-- Input temp path `/tmp/${tempId}_input${inputExt ? '.' + inputExt : ''}`
(server.js line 54; `/convert-base64` uses it with the empty extension,
line 138). -/
def inputPathOf (tempId ext : String) : String :=
  "/tmp/" ++ (tempId ++ ("_input" ++ (if ext = "" then "" else "." ++ ext)))

/-- Output temp path `/tmp/${tempId}_output.${format}` (lines 55 and 139). -/
def outputPathOf (tempId format : String) : String :=
  "/tmp/" ++ (tempId ++ ("_output." ++ format))

/-- The command string built by `/convert` (server.js line 79); the paths
are double-quoted there. -/
def convertCmd (inputPath cArgs outputPath : String) : String :=
  "ffmpeg -i \"" ++ inputPath ++ "\" " ++ cArgs ++ " -y \"" ++ outputPath ++ "\""

/-- The command string built by `/convert-base64` (server.js line 157);
the paths are unquoted there. -/
def convertBase64Cmd (inputPath cArgs outputPath : String) : String :=
  "ffmpeg -i " ++ inputPath ++ " " ++ cArgs ++ " -y " ++ outputPath

/-- Response content-type table with its `|| 'audio/ogg'` fallback
(server.js lines 105-113). -/
def contentTypeFor (format : String) : String :=
  if format = "mp3" then "audio/mpeg"
  else if format = "ogg" then "audio/ogg"
  else if format = "opus" then "audio/opus"
  else if format = "m4a" then "audio/mp4"
  else if format = "aac" then "audio/aac"
  else "audio/ogg"

/-- The base64 alphabet used by Node buffers. -/
def b64Alphabet : List Char :=
  "ABCDEFGHIJKLMNOPQRSTUVWXYZabcdefghijklmnopqrstuvwxyz0123456789+/".data

/-- Character for a six-bit value. -/
def sextetChar (n : Nat) : Char := b64Alphabet.getD n 'A'

/-- Six-bit value of a base64 alphabet character; `none` for any other
character (Node's lenient decoder skips those, including padding). -/
def charSextet (c : Char) : Option Nat :=
  let i := b64Alphabet.indexOf c
  if i < 64 then some i else none

/-- Standard base64 encoding of a byte list (with padding), modelling
`Buffer.prototype.toString('base64')`. -/
def b64Encode : List Nat → List Char
  | [] => []
  | [b1] => [sextetChar (b1 / 4), sextetChar (b1 % 4 * 16), '=', '=']
  | [b1, b2] =>
      [sextetChar (b1 / 4), sextetChar (b1 % 4 * 16 + b2 / 16),
       sextetChar (b2 % 16 * 4), '=']
  | b1 :: b2 :: b3 :: rest =>
      sextetChar (b1 / 4) :: sextetChar (b1 % 4 * 16 + b2 / 16) ::
      sextetChar (b2 % 16 * 4 + b3 / 64) :: sextetChar (b3 % 64) ::
      b64Encode rest

/-- Byte reconstruction from a sextet stream: groups of four sextets give
three bytes; a trailing pair gives one byte, a trailing triple two bytes,
and a lone trailing sextet is dropped. -/
def b64DecodeCore : List Nat → List Nat
  | s1 :: s2 :: s3 :: s4 :: rest =>
      (s1 * 4 + s2 / 16) :: (s2 % 16 * 16 + s3 / 4) :: (s3 % 4 * 64 + s4) ::
      b64DecodeCore rest
  | [s1, s2] => [s1 * 4 + s2 / 16]
  | [s1, s2, s3] => [s1 * 4 + s2 / 16, s2 % 16 * 16 + s3 / 4]
  | _ => []

/-- `Buffer.from(s, 'base64')` (Node): characters outside the base64
alphabet (including padding and whitespace) are ignored, and decoding is
total — it never throws. -/
def nodeBase64Decode (s : String) : List Nat :=
  b64DecodeCore (s.data.filterMap charSextet)

/-- `buffer.toString('base64')` (Node). -/
def nodeBase64Encode (bs : List Nat) : String :=
  String.mk (b64Encode bs)

/-- The file system: an association list from paths to file contents. -/
abbrev FS : Type := List (String × List Nat)

/-- `fs.writeFileSync`: create or replace the file at `p`. -/
def fsWrite (fs : FS) (p : String) (bs : List Nat) : FS :=
  (p, bs) :: List.filter (fun e => e.1 != p) fs

/-- `fs.existsSync`. -/
def fsExists (fs : FS) (p : String) : Bool :=
  List.any fs (fun e => e.1 == p)

/-- `fs.unlinkSync` (on this model, deleting a missing path is a no-op;
the handlers guard every unlink with an existence check anyway). -/
def fsUnlink (fs : FS) (p : String) : FS :=
  List.filter (fun e => e.1 != p) fs

/-- The `finally` cleanup block shared by both endpoints (server.js lines
120-127 and 171-176): delete the input then the output temp file, each
guarded by an existence check, all inside a try/catch that swallows any
deletion failure.  `delFault = true` models a throwing deletion: the
exception is caught and the files are left behind. -/
def cleanup (delFault : Bool) (fs : FS) (ip op : String) : FS :=
  if delFault then fs
  else
    let fs1 := if fsExists fs ip then fsUnlink fs ip else fs
    if fsExists fs1 op then fsUnlink fs1 op else fs1

/-- Placeholder message of the exception thrown by `fs.readFileSync` when
the tool exited 0 but produced no output file. -/
def readFailMsg : String := "ENOENT: no such file or directory"

/-- A multipart upload as seen by the handler (`req.file`); the empty
string models an absent/falsy `originalname` or `mimetype`. -/
structure UploadedFile where
  originalname : String
  mimetype : String
  buffer : List Nat
  size : Nat
deriving DecidableEq

/-- A `/convert` request: query parameters and the optional upload. -/
structure ConvertReq where
  qformat : Option String
  qbitrate : Option String
  file : Option UploadedFile
deriving DecidableEq

/-- A `/convert-base64` request body. -/
structure B64Req where
  audio : Option String
  format : Option String
  bitrate : Option String
deriving DecidableEq

/-- An HTTP response of either endpoint: binary audio, the JSON envelope,
or an error body `{error, details?, input?}` with a status code. -/
inductive HttpResp where
  | bin (contentType : String) (contentLength : Nat) (body : List Nat)
  | json (audio : String) (format : String) (size : Nat)
  | errResp (status : Nat) (error : String) (details : Option String)
      (input : Option (String × String × Nat))
deriving DecidableEq

/-- HTTP status of a response (successful responses are 200). -/
def respStatus : HttpResp → Nat
  | .bin _ _ _ => 200
  | .json _ _ _ => 200
  | .errResp s _ _ _ => s

/-- Body of a binary response, if any. -/
def binBody : HttpResp → Option (List Nat)
  | .bin _ _ b => some b
  | _ => none

/-- The `audio` field of a JSON-envelope response, if any. -/
def jsonAudio : HttpResp → Option String
  | .json a _ _ => some a
  | _ => none

/-- The external tool as an opaque deterministic function: input bytes and
codec-argument string to either a diagnostic message (non-zero exit) or
`some` output-file bytes (`none` = exit 0 but no file produced). -/
abbrev FfmpegFn : Type := List Nat → String → Except String (Option (List Nat))

/-- What one endpoint invocation produces: a response, the final file
system, and the command string handed to `execSync` (if it was invoked). -/
structure HandlerOut where
  resp : HttpResp
  fs : FS
  invoked : Option String
deriving DecidableEq

/-- The `/convert` handler (server.js lines 17-128).  `tempId` is the
value produced by `uuidv4()`, `delFault` models a throwing deletion in the
`finally` block. -/
def convertHandler (f : FfmpegFn) (delFault : Bool) (tempId : String)
    (req : ConvertReq) (fs0 : FS) : HandlerOut :=
  let format := jsOr req.qformat "ogg"
  let bitrate := jsOr req.qbitrate "128k"
  if allowedFormats.contains format = false then
    ⟨.errResp 400 invalidFormatMsg none none, fs0, none⟩
  else
    match req.file with
    | none => ⟨.errResp 400 "No audio file provided" none none, fs0, none⟩
    | some file =>
      let inputExt := resolveInputExt file.originalname file.mimetype
      let inputPath := inputPathOf tempId inputExt
      let outputPath := outputPathOf tempId format
      let fs1 := fsWrite fs0 inputPath file.buffer
      let cArgs := codecArgs format bitrate
      let cmd := convertCmd inputPath cArgs outputPath
      match f file.buffer cArgs with
      | .error emsg =>
          ⟨.errResp 500 "Conversion failed" (some emsg)
              (some (file.originalname, file.mimetype, file.size)),
           cleanup delFault fs1 inputPath outputPath, some cmd⟩
      | .ok none =>
          ⟨.errResp 500 "Server error" (some readFailMsg) none,
           cleanup delFault fs1 inputPath outputPath, some cmd⟩
      | .ok (some outBytes) =>
          let fs2 := fsWrite fs1 outputPath outBytes
          ⟨.bin (contentTypeFor format) outBytes.length outBytes,
           cleanup delFault fs2 inputPath outputPath, some cmd⟩

/-- The `/convert-base64` handler (server.js lines 130-177).  Note: no
format validation, destructuring defaults for `format`/`bitrate`, input
temp path without extension, and a two-case codec switch. -/
def convertBase64Handler (f : FfmpegFn) (delFault : Bool) (tempId : String)
    (req : B64Req) (fs0 : FS) : HandlerOut :=
  let format := jsDefault req.format "ogg"
  let bitrate := jsDefault req.bitrate "128k"
  let missing : HandlerOut :=
    ⟨.errResp 400 "No audio data provided" none none, fs0, none⟩
  match req.audio with
  | none => missing
  | some a =>
    if a = "" then missing
    else
      let inputPath := inputPathOf tempId ""
      let outputPath := outputPathOf tempId format
      let inputBuffer := nodeBase64Decode a
      let fs1 := fsWrite fs0 inputPath inputBuffer
      let cArgs := codecArgsB64 format bitrate
      let cmd := convertBase64Cmd inputPath cArgs outputPath
      match f inputBuffer cArgs with
      | .error emsg =>
          ⟨.errResp 500 emsg none none,
           cleanup delFault fs1 inputPath outputPath, some cmd⟩
      | .ok none =>
          ⟨.errResp 500 readFailMsg none none,
           cleanup delFault fs1 inputPath outputPath, some cmd⟩
      | .ok (some outBytes) =>
          let fs2 := fsWrite fs1 outputPath outBytes
          ⟨.json (nodeBase64Encode outBytes) format outBytes.length,
           cleanup delFault fs2 inputPath outputPath, some cmd⟩

/-- The input extension a `/convert` request resolves to ("" when no file
is attached, since no temp file is derived at all in that case). -/
def convertReqExt : Option UploadedFile → String
  | none => ""
  | some fl => resolveInputExt fl.originalname fl.mimetype

/-- Two strings with equal character data are equal. -/
theorem strExt {s t : String} (h : s.data = t.data) : s = t := by
  cases s; cases t; exact congrArg String.mk h

/-- Character data of a string concatenation. -/
theorem strDataAppend (s t : String) : (s ++ t).data = s.data ++ t.data := by
  cases s; cases t; rfl

/-- Cancelling a temp-path prefix: if two `/tmp/`-prefixed paths built from
identifiers of equal length agree, the identifiers and the suffixes agree. -/
theorem path_eq_parts {id1 id2 s1 s2 : String} (hlen : id1.length = id2.length)
    (h : "/tmp/" ++ (id1 ++ s1) = "/tmp/" ++ (id2 ++ s2)) :
    id1 = id2 ∧ s1 = s2 := by
  have hd := congrArg String.data h
  simp only [strDataAppend] at hd
  have h1 := List.append_cancel_left hd
  have h2 := List.append_inj h1 hlen
  exact ⟨strExt h2.1, strExt h2.2⟩

/-- The `_input` and `_output.` suffix families never coincide. -/
theorem input_suffix_ne_output_suffix (x f : String) :
    "_input" ++ x ≠ "_output." ++ f := by
  intro h
  have hd := congrArg String.data h
  simp only [strDataAppend] at hd
  simp [show "_input".data = ['_', 'i', 'n', 'p', 'u', 't'] from rfl,
        show "_output.".data = ['_', 'o', 'u', 't', 'p', 'u', 't', '.'] from rfl] at hd

/-- A file just unlinked is absent. -/
theorem fsExists_unlink_self (fs : FS) (p : String) :
    fsExists (fsUnlink fs p) p = false := by
  simp only [fsExists, fsUnlink, List.any_eq_false]
  intro e he
  have h2 := (List.mem_filter.mp he).2
  simpa using h2

/-- Unlinking another path cannot make an absent file appear. -/
theorem fsExists_unlink_mono (fs : FS) (p q : String)
    (h : fsExists fs p = false) : fsExists (fsUnlink fs q) p = false := by
  simp only [fsExists, fsUnlink, List.any_eq_false] at h ⊢
  intro e he
  exact h e (List.mem_filter.mp he).1

/-- With working deletion, the cleanup block removes both temp paths. -/
theorem cleanup_clears (fs : FS) (ip op : String) :
    fsExists (cleanup false fs ip op) ip = false ∧
    fsExists (cleanup false fs ip op) op = false := by
  unfold cleanup
  simp only [Bool.false_eq_true, if_false]
  by_cases h1 : fsExists fs ip
  · simp only [h1, if_true]
    by_cases h2 : fsExists (fsUnlink fs ip) op
    · simp only [h2, if_true]
      exact ⟨fsExists_unlink_mono _ _ _ (fsExists_unlink_self fs ip),
             fsExists_unlink_self _ op⟩
    · simp only [h2, if_false]
      exact ⟨fsExists_unlink_self fs ip, Bool.not_eq_true _ ▸ h2⟩
  · have h1' : fsExists fs ip = false := Bool.not_eq_true _ ▸ h1
    simp only [h1', Bool.false_eq_true, if_false]
    by_cases h2 : fsExists fs op
    · simp only [h2, if_true]
      exact ⟨fsExists_unlink_mono _ _ _ h1', fsExists_unlink_self _ op⟩
    · simp only [h2, if_false]
      exact ⟨h1', Bool.not_eq_true _ ▸ h2⟩

/-- The `/convert` codec switch as an encoder table with the bitrate
appended verbatim. -/
theorem codecArgs_shape (fm br : String) :
    codecArgs fm br = "-c:a " ++ encoderOf fm ++ " -b:a " ++ br := by
  unfold codecArgs encoderOf
  split_ifs <;> rfl

/-- The `/convert-base64` codec switch as an encoder table with the
bitrate appended verbatim. -/
theorem codecArgsB64_shape (fm br : String) :
    codecArgsB64 fm br = "-c:a " ++ encoderB64Of fm ++ " -b:a " ++ br := by
  unfold codecArgsB64 encoderB64Of
  split_ifs <;> rfl

/-- For `mp3` and `ogg` the two endpoints build identical codec args. -/
theorem codecArgs_agree (fm br : String) (h : fm = "mp3" ∨ fm = "ogg") :
    codecArgs fm br = codecArgsB64 fm br := by
  rcases h with h | h <;> subst h <;> rfl

/-- `takeWhile` over a satisfying block followed by a failing element. -/
theorem takeWhile_block {p : Char → Bool} {l1 : List Char} {x : Char}
    (l2 : List Char) (h1 : ∀ c ∈ l1, p c = true) (hx : p x = false) :
    (l1 ++ x :: l2).takeWhile p = l1 := by
  induction l1 with
  | nil => simp [List.takeWhile_cons, hx]
  | cons a t ih =>
    simp only [List.cons_append, List.takeWhile_cons, h1 a (by simp), if_true]
    rw [ih (fun c hc => h1 c (by simp [hc]))]

/-- `dropWhile` over a satisfying block followed by a failing element. -/
theorem dropWhile_block {p : Char → Bool} {l1 : List Char} {x : Char}
    (l2 : List Char) (h1 : ∀ c ∈ l1, p c = true) (hx : p x = false) :
    (l1 ++ x :: l2).dropWhile p = x :: l2 := by
  induction l1 with
  | nil => simp [List.dropWhile_cons, hx]
  | cons a t ih =>
    simp only [List.cons_append, List.dropWhile_cons, h1 a (by simp), if_true]
    exact ih (fun c hc => h1 c (by simp [hc]))

/-- Every six-bit value decodes back from its alphabet character. -/
theorem charSextet_sextetChar : ∀ n, n < 64 → charSextet (sextetChar n) = some n := by
  decide

/-- Padding characters are skipped by the lenient decoder. -/
theorem charSextet_pad : charSextet '=' = none := by decide

/-- Fuelled base64 round trip: decoding the lenient sextet stream of an
encoding recovers the original bytes. -/
theorem b64_roundtrip_aux :
    ∀ (fuel : Nat) (bs : List Nat), bs.length ≤ fuel → (∀ b ∈ bs, b < 256) →
      b64DecodeCore ((b64Encode bs).filterMap charSextet) = bs := by
  intro fuel
  induction fuel with
  | zero =>
    intro bs hl _
    have : bs = [] := List.eq_nil_of_length_eq_zero (Nat.le_zero.mp hl)
    subst this
    rfl
  | succ n ih =>
    intro bs hl hb
    rcases bs with _ | ⟨b1, _ | ⟨b2, _ | ⟨b3, rest⟩⟩⟩
    · rfl
    · have h1 : b1 < 256 := hb b1 (by simp)
      have e1 := charSextet_sextetChar (b1 / 4) (by omega)
      have e2 := charSextet_sextetChar (b1 % 4 * 16) (by omega)
      simp only [b64Encode, List.filterMap_cons, e1, e2, charSextet_pad,
        List.filterMap_nil, b64DecodeCore, List.cons.injEq, and_true]
      omega
    · have h1 : b1 < 256 := hb b1 (by simp)
      have h2 : b2 < 256 := hb b2 (by simp)
      have e1 := charSextet_sextetChar (b1 / 4) (by omega)
      have e2 := charSextet_sextetChar (b1 % 4 * 16 + b2 / 16) (by omega)
      have e3 := charSextet_sextetChar (b2 % 16 * 4) (by omega)
      simp only [b64Encode, List.filterMap_cons, e1, e2, e3, charSextet_pad,
        List.filterMap_nil, b64DecodeCore, List.cons.injEq, and_true]
      constructor <;> omega
    · have h1 : b1 < 256 := hb b1 (by simp)
      have h2 : b2 < 256 := hb b2 (by simp)
      have h3 : b3 < 256 := hb b3 (by simp)
      have e1 := charSextet_sextetChar (b1 / 4) (by omega)
      have e2 := charSextet_sextetChar (b1 % 4 * 16 + b2 / 16) (by omega)
      have e3 := charSextet_sextetChar (b2 % 16 * 4 + b3 / 64) (by omega)
      have e4 := charSextet_sextetChar (b3 % 64) (by omega)
      have hlr : rest.length ≤ n := by
        simp only [List.length_cons] at hl
        omega
      have hbr : ∀ b ∈ rest, b < 256 := fun b hbm => hb b (by simp [hbm])
      simp only [b64Encode, List.filterMap_cons, e1, e2, e3, e4, b64DecodeCore,
        List.cons.injEq]
      refine ⟨by omega, by omega, by omega, ih rest hlr hbr⟩

/-- Node-level base64 round trip on byte lists. -/
theorem nodeB64_roundtrip (bs : List Nat) (h : ∀ b ∈ bs, b < 256) :
    nodeBase64Decode (nodeBase64Encode bs) = bs :=
  b64_roundtrip_aux bs.length bs le_rfl h

/-- C2 counterexample: the codec mapping is NOT the same on both
endpoints — at format `opus` (likewise `m4a`/`aac`), `/convert` selects
libopus while `/convert-base64` falls through to the libvorbis default. -/
theorem c2_codec_mapping_endpoint_mismatch :
    codecArgs "opus" "128k" = "-c:a libopus -b:a 128k" ∧
    codecArgsB64 "opus" "128k" = "-c:a libvorbis -b:a 128k" ∧
    codecArgs "opus" "128k" ≠ codecArgsB64 "opus" "128k" := by decide

/-- C2 (amended): `/convert` follows the full static directive table
(mp3 uses libmp3lame, ogg libvorbis, opus libopus, m4a and aac both the
aac encoder, anything unrecognized libvorbis); `/convert-base64` maps only
mp3 and ogg explicitly and sends every other format (including opus, m4a
and aac) to the libvorbis default. -/
theorem c2_codec_directive_tables (br : String) :
    codecArgs "mp3" br = "-c:a libmp3lame -b:a " ++ br ∧
    codecArgs "ogg" br = "-c:a libvorbis -b:a " ++ br ∧
    codecArgs "opus" br = "-c:a libopus -b:a " ++ br ∧
    codecArgs "m4a" br = "-c:a aac -b:a " ++ br ∧
    codecArgs "aac" br = "-c:a aac -b:a " ++ br ∧
    (∀ fm, fm ∉ allowedFormats → codecArgs fm br = "-c:a libvorbis -b:a " ++ br) ∧
    codecArgsB64 "mp3" br = "-c:a libmp3lame -b:a " ++ br ∧
    codecArgsB64 "ogg" br = "-c:a libvorbis -b:a " ++ br ∧
    (∀ fm, fm ∉ (["mp3", "ogg"] : List String) →
      codecArgsB64 fm br = "-c:a libvorbis -b:a " ++ br) := by
  refine ⟨rfl, rfl, rfl, rfl, rfl, ?_, rfl, rfl, ?_⟩
  · intro fm hm
    simp only [allowedFormats, List.mem_cons, List.not_mem_nil, or_false,
      not_or] at hm
    obtain ⟨hogg, hmp3, hopus, hm4a, haac⟩ := hm
    rw [codecArgs, if_neg hmp3, if_neg hogg, if_neg hopus,
      if_neg (by tauto)]
  · intro fm hm
    simp only [List.mem_cons, List.not_mem_nil, or_false, not_or] at hm
    obtain ⟨hmp3, hogg⟩ := hm
    rw [codecArgsB64, if_neg hmp3, if_neg hogg]

/-- C2 witness: the unrecognized-format default at a concrete format. -/
theorem c2_codec_directive_tables_witness :
    ("wav" ∉ allowedFormats) ∧ ("wav" ∉ (["mp3", "ogg"] : List String)) ∧
    codecArgs "wav" "64k" = "-c:a libvorbis -b:a " ++ "64k" ∧
    codecArgsB64 "wav" "64k" = "-c:a libvorbis -b:a " ++ "64k" :=
  ⟨by decide, by decide,
   (c2_codec_directive_tables "64k").2.2.2.2.2.1 "wav" (by decide),
   (c2_codec_directive_tables "64k").2.2.2.2.2.2.2.2 "wav" (by decide)⟩

/-- C5: for two requests with distinct generated identifiers (uuidv4
canonical strings, 36 characters), the four derived temp paths are
pairwise distinct regardless of resolved input extension and target
format, and within one request the input path never equals the output
path. -/
theorem c5_temp_paths_distinct (id1 id2 e1 e2 f1 f2 : String)
    (hne : id1 ≠ id2) (hl1 : id1.length = 36) (hl2 : id2.length = 36) :
    inputPathOf id1 e1 ≠ inputPathOf id2 e2 ∧
    inputPathOf id1 e1 ≠ outputPathOf id2 f2 ∧
    outputPathOf id1 f1 ≠ inputPathOf id2 e2 ∧
    outputPathOf id1 f1 ≠ outputPathOf id2 f2 ∧
    (∀ id e fm, inputPathOf id e ≠ outputPathOf id fm) := by
  have hlen : id1.length = id2.length := by rw [hl1, hl2]
  have key : ∀ s1 s2 : String,
      "/tmp/" ++ (id1 ++ s1) = "/tmp/" ++ (id2 ++ s2) → False :=
    fun s1 s2 h => hne (path_eq_parts hlen h).1
  refine ⟨?_, ?_, ?_, ?_, ?_⟩
  · intro h
    simp only [inputPathOf] at h
    exact key _ _ h
  · intro h
    simp only [inputPathOf, outputPathOf] at h
    exact key _ _ h
  · intro h
    simp only [inputPathOf, outputPathOf] at h
    exact key _ _ h
  · intro h
    simp only [outputPathOf] at h
    exact key _ _ h
  · intro id e fm h
    simp only [inputPathOf, outputPathOf] at h
    exact input_suffix_ne_output_suffix _ _ (path_eq_parts rfl h).2

/-- C5 witness: two concrete uuid-shaped identifiers. -/
theorem c5_temp_paths_distinct_witness :
    ("123e4567-e89b-42d3-a456-426614174000" : String)
      ≠ "00000000-0000-4000-8000-000000000000" ∧
    ("123e4567-e89b-42d3-a456-426614174000" : String).length = 36 ∧
    inputPathOf "123e4567-e89b-42d3-a456-426614174000" "mp3"
      ≠ outputPathOf "00000000-0000-4000-8000-000000000000" "ogg" :=
  ⟨by decide, by decide,
   (c5_temp_paths_distinct "123e4567-e89b-42d3-a456-426614174000"
     "00000000-0000-4000-8000-000000000000" "mp3" "" "ogg" "ogg"
     (by decide) (by decide) (by decide)).2.1⟩

/-- A nonempty all-word-character suffix after a dot is what the regex
`\.(\w+)$` extracts. -/
theorem trailingExt_of_dotted (stem ext : String) (hext : ext ≠ "")
    (hall : ∀ c ∈ ext.data, isWordChar c = true) :
    trailingExt (stem ++ "." ++ ext) = ext := by
  have hdne : ext.data ≠ [] := by
    intro hd
    exact hext (strExt (by simp [hd]))
  have hwords : ∀ c ∈ ext.data.reverse, isWordChar c = true :=
    fun c hc => hall c (List.mem_reverse.mp hc)
  have hdot : isWordChar '.' = false := by decide
  have hrev : (stem ++ "." ++ ext).data.reverse
      = ext.data.reverse ++ ('.' :: stem.data.reverse) := by
    simp [strDataAppend, List.reverse_append]
  simp only [trailingExt, hrev,
    takeWhile_block stem.data.reverse hwords hdot,
    dropWhile_block stem.data.reverse hwords hdot]
  have hemp : ext.data.reverse.isEmpty = false := by
    simp [List.isEmpty_iff, hdne]
  simp only [hemp, Bool.false_eq_true, if_false, List.reverse_reverse]

/-- C6: input-extension resolution for `/convert` is total and ordered —
a trailing filename extension (nonempty run of word characters after a
dot) wins outright; with no trailing extension the declared MIME type is
looked up in the static table, so `audio/mpeg` with no filename extension
resolves to `mp3`; a MIME type outside the table with no filename
extension resolves to the empty extension. -/
theorem c6_input_ext_resolution :
    (∀ stem ext mime : String, ext ≠ "" →
      (∀ c ∈ ext.data, isWordChar c = true) →
      resolveInputExt (stem ++ "." ++ ext) mime = ext) ∧
    (∀ name mime : String, trailingExt name = "" →
      resolveInputExt name mime = mimeToExt mime) ∧
    resolveInputExt "" "audio/mpeg" = "mp3" ∧
    (∀ mime : String, mime ∉ mimeKeys → resolveInputExt "" mime = "") := by
  refine ⟨?_, ?_, by decide, ?_⟩
  · intro stem ext mime hext hall
    have hne : stem ++ "." ++ ext ≠ "" := by
      intro h0
      have hd := congrArg String.data h0
      simp [strDataAppend] at hd
    simp only [resolveInputExt, ne_eq, hne, not_false_eq_true, if_true,
      trailingExt_of_dotted stem ext hext hall]
    simp [hext]
  · intro name mime h
    by_cases hn : name = ""
    · by_cases hm : mime = ""
      · subst hn; subst hm; rfl
      · subst hn; simp [resolveInputExt, hm]
    · by_cases hm : mime = ""
      · subst hm; simp [resolveInputExt, hn, h, mimeToExt]
      · simp [resolveInputExt, hn, hm, h]
  · intro mime hm
    by_cases hm0 : mime = ""
    · subst hm0; rfl
    · simp only [mimeKeys, List.mem_cons, List.not_mem_nil, or_false,
        not_or] at hm
      obtain ⟨k1, k2, k3, k4, k5, k6, k7, k8, k9, k10, k11, k12⟩ := hm
      simp [resolveInputExt, hm0, mimeToExt, k1, k2, k3, k4, k5, k6, k7,
        k8, k9, k10, k11, k12]

/-- C6 witness: concrete resolutions through each branch. -/
theorem c6_input_ext_resolution_witness :
    ("flac" : String) ≠ "" ∧
    resolveInputExt ("song" ++ "." ++ "flac") "audio/mpeg" = "flac" ∧
    trailingExt "song" = "" ∧
    resolveInputExt "song" "audio/mpeg" = mimeToExt "audio/mpeg" ∧
    ("application/pdf" : String) ∉ mimeKeys ∧
    resolveInputExt "" "application/pdf" = "" :=
  ⟨by decide,
   c6_input_ext_resolution.1 "song" "flac" "audio/mpeg" (by decide) (by decide),
   by decide,
   c6_input_ext_resolution.2.1 "song" "audio/mpeg" (by decide),
   by decide,
   c6_input_ext_resolution.2.2.2 "application/pdf" (by decide)⟩

/-- C9: in `/convert`, format validation precedes the file-presence
check — a request with an unsupported (nonempty) format string and no
attached file gets the invalid-format 400, not the missing-file 400. -/
theorem c9_format_check_precedes_file_check
    (f : FfmpegFn) (d : Bool) (tid : String) (fs0 : FS) (fmt : String)
    (br : Option String)
    (hfmt : allowedFormats.contains fmt = false) (hne : fmt ≠ "") :
    (convertHandler f d tid ⟨some fmt, br, none⟩ fs0).resp
      = .errResp 400 invalidFormatMsg none none ∧
    invalidFormatMsg ≠ "No audio file provided" := by
  have hmem : fmt ∉ allowedFormats := by simpa using hfmt
  constructor
  · simp [convertHandler, jsOr, hne, hmem]
  · decide

/-- C9 witness: unsupported format `wav` together with a missing file. -/
theorem c9_format_check_precedes_file_check_witness :
    allowedFormats.contains "wav" = false ∧
    (convertHandler (fun _ _ => .ok none) false "t"
        ⟨some "wav", none, none⟩ []).resp
      = .errResp 400 invalidFormatMsg none none :=
  ⟨by decide,
   (c9_format_check_precedes_file_check (fun _ _ => .ok none) false "t" []
     "wav" none (by decide) (by decide)).1⟩

/-- C10: for any non-empty `audio` string, `/convert-base64` base64
decoding is total and never produces a 400 — the transcode step is always
reached, and an external-tool failure surfaces as a 500; an entirely
malformed payload decodes to the empty buffer. -/
theorem c10_b64_decode_total_no_400 :
    (∀ (f : FfmpegFn) (d : Bool) (tid : String) (fs0 : FS)
        (fmtv brv : Option String) (a : String), a ≠ "" →
      (convertBase64Handler f d tid ⟨some a, fmtv, brv⟩ fs0).invoked ≠ none ∧
      respStatus (convertBase64Handler f d tid ⟨some a, fmtv, brv⟩ fs0).resp ≠ 400 ∧
      (∀ emsg, f (nodeBase64Decode a)
          (codecArgsB64 (jsDefault fmtv "ogg") (jsDefault brv "128k")) = .error emsg →
        respStatus (convertBase64Handler f d tid ⟨some a, fmtv, brv⟩ fs0).resp = 500)) ∧
    nodeBase64Decode "!!!!" = [] := by
  constructor
  · intro f d tid fs0 fmtv brv a ha
    cases hf : f (nodeBase64Decode a)
        (codecArgsB64 (jsDefault fmtv "ogg") (jsDefault brv "128k")) with
    | error emsg =>
      refine ⟨?_, ?_, ?_⟩ <;>
        simp [convertBase64Handler, ha, hf, respStatus]
    | ok o =>
      cases o with
      | none =>
        refine ⟨?_, ?_, ?_⟩ <;>
          simp [convertBase64Handler, ha, hf, respStatus]
      | some outBytes =>
        refine ⟨?_, ?_, ?_⟩ <;>
          simp [convertBase64Handler, ha, hf, respStatus]
  · decide

/-- C10 witness: a malformed non-empty payload with a failing tool run
yields a 500, never a 400. -/
theorem c10_b64_decode_total_no_400_witness :
    ("@@@@" : String) ≠ "" ∧
    respStatus ((convertBase64Handler (fun _ _ => .error "boom") false "t"
        ⟨some "@@@@", none, none⟩ []).resp) = 500 :=
  ⟨by decide,
   (c10_b64_decode_total_no_400.1 (fun _ _ => .error "boom") false "t" []
     none none "@@@@" (by decide)).2.2 "boom" rfl⟩

/-- C1 counterexample: `wav` is not a supported format, yet a
`/convert-base64` request with format `wav` is NOT rejected with the
invalid-format 400 — the handler proceeds and (with a succeeding tool)
returns 200, so the two endpoints do not validate alike. -/
theorem c1_b64_no_format_validation_cex :
    allowedFormats.contains "wav" = false ∧
    (convertBase64Handler (fun _ _ => .ok (some [1])) false "t"
        ⟨some "AAAA", some "wav", none⟩ []).resp = .json "AQ==" "wav" 1 ∧
    (convertBase64Handler (fun _ _ => .ok (some [1])) false "t"
        ⟨some "AAAA", some "wav", none⟩ []).resp
      ≠ .errResp 400 invalidFormatMsg none none := by decide

/-- C1 (amended): only `/convert` rejects unsupported (nonempty) target
formats with the fixed invalid-format 400; `/convert-base64` performs no
format validation at all — it never emits the invalid-format response,
and with a non-empty `audio` field it always proceeds to invoke the tool
whatever the format string. -/
theorem c1_format_validation_convert_only :
    (∀ (f : FfmpegFn) (d : Bool) (tid : String) (fs0 : FS)
        (req : ConvertReq) (fmt : String),
      req.qformat = some fmt → fmt ≠ "" → allowedFormats.contains fmt = false →
      (convertHandler f d tid req fs0).resp
        = .errResp 400 invalidFormatMsg none none) ∧
    (∀ (f : FfmpegFn) (d : Bool) (tid : String) (fs0 : FS) (breq : B64Req),
      (convertBase64Handler f d tid breq fs0).resp
        ≠ .errResp 400 invalidFormatMsg none none) ∧
    (∀ (f : FfmpegFn) (d : Bool) (tid : String) (fs0 : FS) (a : String)
        (fmtv brv : Option String), a ≠ "" →
      (convertBase64Handler f d tid ⟨some a, fmtv, brv⟩ fs0).invoked ≠ none) := by
  refine ⟨?_, ?_, ?_⟩
  · intro f d tid fs0 req fmt hq hne hfmt
    have hmem : fmt ∉ allowedFormats := by simpa using hfmt
    simp [convertHandler, hq, jsOr, hne, hmem]
  · intro f d tid fs0 breq h
    obtain ⟨a, fmtv, brv⟩ := breq
    cases a with
    | none =>
      simp [convertBase64Handler, invalidFormatMsg] at h
    | some s =>
      by_cases hs : s = ""
      · subst hs
        simp [convertBase64Handler, invalidFormatMsg] at h
      · cases hf : f (nodeBase64Decode s)
            (codecArgsB64 (jsDefault fmtv "ogg") (jsDefault brv "128k")) with
        | error emsg => simp [convertBase64Handler, hs, hf] at h
        | ok o =>
          cases o with
          | none => simp [convertBase64Handler, hs, hf] at h
          | some outBytes => simp [convertBase64Handler, hs, hf] at h
  · intro f d tid fs0 a fmtv brv ha
    cases hf : f (nodeBase64Decode a)
        (codecArgsB64 (jsDefault fmtv "ogg") (jsDefault brv "128k")) with
    | error emsg => simp [convertBase64Handler, ha, hf]
    | ok o =>
      cases o with
      | none => simp [convertBase64Handler, ha, hf]
      | some outBytes => simp [convertBase64Handler, ha, hf]

/-- C1 witness: `/convert` rejecting format `wav` on a concrete request. -/
theorem c1_format_validation_convert_only_witness :
    (some "wav" : Option String) = some "wav" ∧
    allowedFormats.contains "wav" = false ∧
    (convertHandler (fun _ _ => .ok none) false "t"
        ⟨some "wav", none, some ⟨"a.mp3", "audio/mpeg", [0], 1⟩⟩ []).resp
      = .errResp 400 invalidFormatMsg none none :=
  ⟨rfl, by decide,
   c1_format_validation_convert_only.1 (fun _ _ => .ok none) false "t" []
     ⟨some "wav", none, some ⟨"a.mp3", "audio/mpeg", [0], 1⟩⟩ "wav"
     rfl (by decide) (by decide)⟩

/-- C7 counterexample: a `/convert` request with no file does NOT always
yield the missing-file body — with an unsupported format string the
earlier format check wins and the 400 carries the invalid-format message
instead. -/
theorem c7_missing_file_message_cex :
    (convertHandler (fun _ _ => .ok none) false "t"
        ⟨some "wav", none, none⟩ []).resp
      = .errResp 400 invalidFormatMsg none none ∧
    invalidFormatMsg ≠ "No audio file provided" := by decide

/-- C7 (amended): a `/convert` request whose (defaulted) format passes
validation and which has no multipart file yields exactly
400 `No audio file provided`; a `/convert-base64` request with a missing
or empty `audio` field always yields exactly 400 `No audio data
provided`; in both cases the file system is untouched and the external
tool is not invoked. -/
theorem c7_missing_input_responses :
    (∀ (f : FfmpegFn) (d : Bool) (tid : String) (fs0 : FS)
        (fmtv brv : Option String),
      allowedFormats.contains (jsOr fmtv "ogg") = true →
      convertHandler f d tid ⟨fmtv, brv, none⟩ fs0
        = ⟨.errResp 400 "No audio file provided" none none, fs0, none⟩) ∧
    (∀ (f : FfmpegFn) (d : Bool) (tid : String) (fs0 : FS)
        (fmtv brv : Option String) (a : Option String),
      a = none ∨ a = some "" →
      convertBase64Handler f d tid ⟨a, fmtv, brv⟩ fs0
        = ⟨.errResp 400 "No audio data provided" none none, fs0, none⟩) := by
  constructor
  · intro f d tid fs0 fmtv brv hok
    have hmem : jsOr fmtv "ogg" ∈ allowedFormats := by simpa using hok
    simp [convertHandler, hmem]
  · intro f d tid fs0 fmtv brv a ha
    rcases ha with ha | ha <;> subst ha <;> simp [convertBase64Handler]

/-- C7 witness: concrete missing-input requests on both endpoints. -/
theorem c7_missing_input_responses_witness :
    allowedFormats.contains (jsOr (some "mp3") "ogg") = true ∧
    (convertHandler (fun _ _ => .ok none) false "t"
        ⟨some "mp3", none, none⟩ []
      = ⟨.errResp 400 "No audio file provided" none none, [], none⟩) ∧
    (convertBase64Handler (fun _ _ => .ok none) false "t"
        ⟨none, some "ogg", none⟩ []
      = ⟨.errResp 400 "No audio data provided" none none, [], none⟩) :=
  ⟨by decide,
   c7_missing_input_responses.1 (fun _ _ => .ok none) false "t" []
     (some "mp3") none (by decide),
   c7_missing_input_responses.2 (fun _ _ => .ok none) false "t" []
     (some "ogg") none none (Or.inl rfl)⟩

/-- C8: every command string handed to the external tool has exactly the
shape `ffmpeg -i <input> -c:a <encoder> -b:a <bitrate> -y <output>`
(paths double-quoted on `/convert`, unquoted on `/convert-base64`), with
the request's resolved bitrate string embedded verbatim after `-b:a `. -/
theorem c8_cmd_shape :
    (∀ (f : FfmpegFn) (d : Bool) (tid : String) (req : ConvertReq)
        (fs0 : FS) (c : String),
      (convertHandler f d tid req fs0).invoked = some c →
      ∃ ip op : String,
        c = "ffmpeg -i \"" ++ ip ++ "\" " ++
          ("-c:a " ++ encoderOf (jsOr req.qformat "ogg") ++ " -b:a " ++
            jsOr req.qbitrate "128k") ++ " -y \"" ++ op ++ "\"") ∧
    (∀ (f : FfmpegFn) (d : Bool) (tid : String) (breq : B64Req)
        (fs0 : FS) (c : String),
      (convertBase64Handler f d tid breq fs0).invoked = some c →
      ∃ ip op : String,
        c = "ffmpeg -i " ++ ip ++ " " ++
          ("-c:a " ++ encoderB64Of (jsDefault breq.format "ogg") ++ " -b:a " ++
            jsDefault breq.bitrate "128k") ++ " -y " ++ op) := by
  constructor
  · intro f d tid req fs0 c h
    obtain ⟨qf, qb, file⟩ := req
    by_cases hmem : jsOr qf "ogg" ∈ allowedFormats
    · cases file with
      | none => simp [convertHandler, hmem] at h
      | some fl =>
        refine ⟨inputPathOf tid (resolveInputExt fl.originalname fl.mimetype),
                outputPathOf tid (jsOr qf "ogg"), ?_⟩
        cases hf : f fl.buffer (codecArgs (jsOr qf "ogg") (jsOr qb "128k")) with
        | error emsg =>
          simp [convertHandler, hmem, hf] at h
          rw [← h, convertCmd, codecArgs_shape]
        | ok o =>
          cases o with
          | none =>
            simp [convertHandler, hmem, hf] at h
            rw [← h, convertCmd, codecArgs_shape]
          | some outBytes =>
            simp [convertHandler, hmem, hf] at h
            rw [← h, convertCmd, codecArgs_shape]
    · simp [convertHandler, hmem] at h
  · intro f d tid breq fs0 c h
    obtain ⟨a, fmtv, brv⟩ := breq
    cases a with
    | none => simp [convertBase64Handler] at h
    | some s =>
      by_cases hs : s = ""
      · subst hs
        simp [convertBase64Handler] at h
      · refine ⟨inputPathOf tid "", outputPathOf tid (jsDefault fmtv "ogg"), ?_⟩
        cases hf : f (nodeBase64Decode s)
            (codecArgsB64 (jsDefault fmtv "ogg") (jsDefault brv "128k")) with
        | error emsg =>
          simp [convertBase64Handler, hs, hf] at h
          rw [← h, convertBase64Cmd, codecArgsB64_shape]
        | ok o =>
          cases o with
          | none =>
            simp [convertBase64Handler, hs, hf] at h
            rw [← h, convertBase64Cmd, codecArgsB64_shape]
          | some outBytes =>
            simp [convertBase64Handler, hs, hf] at h
            rw [← h, convertBase64Cmd, codecArgsB64_shape]

/-- C8 witness: the concrete command for a concrete opus request. -/
theorem c8_cmd_shape_witness :
    (convertHandler (fun _ _ => .ok (some [1])) false "t"
        ⟨some "opus", some "96k", some ⟨"a.mp3", "audio/mpeg", [0], 1⟩⟩
        []).invoked = some
      "ffmpeg -i \"/tmp/t_input.mp3\" -c:a libopus -b:a 96k -y \"/tmp/t_output.opus\"" ∧
    ∃ ip op : String,
      "ffmpeg -i \"/tmp/t_input.mp3\" -c:a libopus -b:a 96k -y \"/tmp/t_output.opus\""
        = "ffmpeg -i \"" ++ ip ++ "\" " ++
          ("-c:a " ++ encoderOf (jsOr (some "opus") "ogg") ++ " -b:a " ++
            jsOr (some "96k") "128k") ++ " -y \"" ++ op ++ "\"" :=
  ⟨by decide,
   c8_cmd_shape.1 (fun _ _ => .ok (some [1])) false "t"
     ⟨some "opus", some "96k", some ⟨"a.mp3", "audio/mpeg", [0], 1⟩⟩ []
     "ffmpeg -i \"/tmp/t_input.mp3\" -c:a libopus -b:a 96k -y \"/tmp/t_output.opus\""
     (by decide)⟩

/-- C3 counterexample: the two pipelines are NOT equivalent for every
accepted format — at format `opus` with identical input bytes and bitrate,
an opaque deterministic tool that distinguishes libopus from libvorbis
arguments makes the binary body and the decoded JSON audio differ,
because `/convert-base64` falls through to libvorbis. -/
theorem c3_mode_equivalence_cex :
    nodeBase64Decode "AAAA" = [0, 0, 0] ∧
    binBody (convertHandler
        (fun _ cargs => Except.ok (some
          (if cargs = "-c:a libopus -b:a 128k" then [1] else [2])))
        false "t1"
        ⟨some "opus", some "128k", some ⟨"x", "", [0, 0, 0], 3⟩⟩ []).resp
      = some [1] ∧
    (jsonAudio (convertBase64Handler
        (fun _ cargs => Except.ok (some
          (if cargs = "-c:a libopus -b:a 128k" then [1] else [2])))
        false "t2" ⟨some "AAAA", some "opus", some "128k"⟩ []).resp).map
        nodeBase64Decode
      = some [2] ∧
    binBody (convertHandler
        (fun _ cargs => Except.ok (some
          (if cargs = "-c:a libopus -b:a 128k" then [1] else [2])))
        false "t1"
        ⟨some "opus", some "128k", some ⟨"x", "", [0, 0, 0], 3⟩⟩ []).resp
      ≠ (jsonAudio (convertBase64Handler
        (fun _ cargs => Except.ok (some
          (if cargs = "-c:a libopus -b:a 128k" then [1] else [2])))
        false "t2" ⟨some "AAAA", some "opus", some "128k"⟩ []).resp).map
        nodeBase64Decode := by decide

/-- C3 (amended): mode-equivalence holds for the formats whose codec
arguments agree on both endpoints, namely `mp3` and `ogg` — for identical
input bytes, target format and bitrate, and the external tool an opaque
deterministic function of (input bytes, codec arguments), base64-decoding
the `audio` field returned by `/convert-base64` yields exactly the bytes
`/convert` returns as its binary body. -/
theorem c3_mode_equivalence_mp3_ogg
    (f : FfmpegFn) (tid1 tid2 : String) (fs1 fs2 : FS)
    (file : UploadedFile) (a fmt br : String) (out : List Nat)
    (hfmt : fmt = "mp3" ∨ fmt = "ogg") (hbr : br ≠ "")
    (hdec : nodeBase64Decode a = file.buffer) (ha : a ≠ "")
    (hf : f file.buffer (codecArgs fmt br) = .ok (some out))
    (hout : ∀ b ∈ out, b < 256) :
    binBody (convertHandler f false tid1
        ⟨some fmt, some br, some file⟩ fs1).resp = some out ∧
    (jsonAudio (convertBase64Handler f false tid2
        ⟨some a, some fmt, some br⟩ fs2).resp).map nodeBase64Decode
      = some out := by
  have hfne : fmt ≠ "" := by rcases hfmt with h | h <;> subst h <;> decide
  have hmem : fmt ∈ allowedFormats := by
    rcases hfmt with h | h <;> subst h <;> decide
  constructor
  · simp [convertHandler, jsOr, hfne, hbr, hmem, hf, binBody]
  · have hf2 : f (nodeBase64Decode a) (codecArgsB64 fmt br) = .ok (some out) := by
      rw [hdec, ← codecArgs_agree fmt br hfmt]
      exact hf
    simp [convertBase64Handler, jsDefault, ha, hf2, jsonAudio,
      nodeB64_roundtrip out hout]

/-- C3 witness: a concrete mp3 round trip through both endpoints. -/
theorem c3_mode_equivalence_mp3_ogg_witness :
    nodeBase64Decode "AAAA" = [0, 0, 0] ∧
    binBody (convertHandler (fun _ _ => .ok (some [104, 105])) false "t1"
        ⟨some "mp3", some "64k", some ⟨"x.mp3", "audio/mpeg", [0, 0, 0], 3⟩⟩
        []).resp = some [104, 105] ∧
    (jsonAudio (convertBase64Handler (fun _ _ => .ok (some [104, 105]))
        false "t2" ⟨some "AAAA", some "mp3", some "64k"⟩ []).resp).map
        nodeBase64Decode = some [104, 105] :=
  ⟨by decide,
   (c3_mode_equivalence_mp3_ogg (fun _ _ => .ok (some [104, 105])) "t1" "t2"
     [] [] ⟨"x.mp3", "audio/mpeg", [0, 0, 0], 3⟩ "AAAA" "mp3" "64k"
     [104, 105] (Or.inl rfl) (by decide) (by decide) (by decide) rfl
     (by decide)).1,
   (c3_mode_equivalence_mp3_ogg (fun _ _ => .ok (some [104, 105])) "t1" "t2"
     [] [] ⟨"x.mp3", "audio/mpeg", [0, 0, 0], 3⟩ "AAAA" "mp3" "64k"
     [104, 105] (Or.inl rfl) (by decide) (by decide) (by decide) rfl
     (by decide)).2⟩

/-- The cleanup block removes the input temp path. -/
theorem cleanup_clears_ip (fs : FS) (ip op : String) :
    fsExists (cleanup false fs ip op) ip = false :=
  (cleanup_clears fs ip op).1

/-- The cleanup block removes the output temp path. -/
theorem cleanup_clears_op (fs : FS) (ip op : String) :
    fsExists (cleanup false fs ip op) op = false :=
  (cleanup_clears fs ip op).2

/-- C4: on every exit path of either endpoint (validation failure,
conversion failure, missing output file, success), after the response is
determined the scratch directory contains neither the request's input
temp file nor its output temp file (given a fresh identifier, i.e.
neither path pre-exists), and a throwing deletion never changes the
response sent to the client. -/
theorem c4_cleanup_invariant :
    (∀ (f : FfmpegFn) (tid : String) (qf qb : Option String)
        (file : Option UploadedFile) (fs0 : FS),
      fsExists fs0 (inputPathOf tid (convertReqExt file)) = false →
      fsExists fs0 (outputPathOf tid (jsOr qf "ogg")) = false →
      fsExists (convertHandler f false tid ⟨qf, qb, file⟩ fs0).fs
        (inputPathOf tid (convertReqExt file)) = false ∧
      fsExists (convertHandler f false tid ⟨qf, qb, file⟩ fs0).fs
        (outputPathOf tid (jsOr qf "ogg")) = false ∧
      (convertHandler f true tid ⟨qf, qb, file⟩ fs0).resp
        = (convertHandler f false tid ⟨qf, qb, file⟩ fs0).resp) ∧
    (∀ (f : FfmpegFn) (tid : String) (a : Option String)
        (fmtv brv : Option String) (fs0 : FS),
      fsExists fs0 (inputPathOf tid "") = false →
      fsExists fs0 (outputPathOf tid (jsDefault fmtv "ogg")) = false →
      fsExists (convertBase64Handler f false tid ⟨a, fmtv, brv⟩ fs0).fs
        (inputPathOf tid "") = false ∧
      fsExists (convertBase64Handler f false tid ⟨a, fmtv, brv⟩ fs0).fs
        (outputPathOf tid (jsDefault fmtv "ogg")) = false ∧
      (convertBase64Handler f true tid ⟨a, fmtv, brv⟩ fs0).resp
        = (convertBase64Handler f false tid ⟨a, fmtv, brv⟩ fs0).resp) := by
  constructor
  · intro f tid qf qb file fs0 h1 h2
    by_cases hmem : jsOr qf "ogg" ∈ allowedFormats
    · cases file with
      | none =>
        refine ⟨?_, ?_, ?_⟩ <;> simp [convertHandler, hmem, h1, h2]
      | some fl =>
        cases hf : f fl.buffer (codecArgs (jsOr qf "ogg") (jsOr qb "128k")) with
        | error emsg =>
          refine ⟨?_, ?_, ?_⟩ <;>
            simp [convertHandler, convertReqExt, hmem, hf,
              cleanup_clears_ip, cleanup_clears_op]
        | ok o =>
          cases o with
          | none =>
            refine ⟨?_, ?_, ?_⟩ <;>
              simp [convertHandler, convertReqExt, hmem, hf,
                cleanup_clears_ip, cleanup_clears_op]
          | some outBytes =>
            refine ⟨?_, ?_, ?_⟩ <;>
              simp [convertHandler, convertReqExt, hmem, hf,
                cleanup_clears_ip, cleanup_clears_op]
    · refine ⟨?_, ?_, ?_⟩ <;> simp [convertHandler, hmem, h1, h2]
  · intro f tid a fmtv brv fs0 h1 h2
    cases a with
    | none =>
      refine ⟨?_, ?_, ?_⟩ <;> simp [convertBase64Handler, h1, h2]
    | some s =>
      by_cases hs : s = ""
      · subst hs
        refine ⟨?_, ?_, ?_⟩ <;> simp [convertBase64Handler, h1, h2]
      · cases hf : f (nodeBase64Decode s)
            (codecArgsB64 (jsDefault fmtv "ogg") (jsDefault brv "128k")) with
        | error emsg =>
          refine ⟨?_, ?_, ?_⟩ <;>
            simp [convertBase64Handler, hs, hf,
              cleanup_clears_ip, cleanup_clears_op]
        | ok o =>
          cases o with
          | none =>
            refine ⟨?_, ?_, ?_⟩ <;>
              simp [convertBase64Handler, hs, hf,
                cleanup_clears_ip, cleanup_clears_op]
          | some outBytes =>
            refine ⟨?_, ?_, ?_⟩ <;>
              simp [convertBase64Handler, hs, hf,
                cleanup_clears_ip, cleanup_clears_op]

/-- C4 witness: a concrete successful request on each endpoint leaves
neither temp file behind. -/
theorem c4_cleanup_invariant_witness :
    fsExists [] (inputPathOf "t" (convertReqExt
      (some ⟨"a.mp3", "audio/mpeg", [0], 1⟩))) = false ∧
    fsExists (convertHandler (fun _ _ => .ok (some [1])) false "t"
        ⟨some "ogg", none, some ⟨"a.mp3", "audio/mpeg", [0], 1⟩⟩ []).fs
      (inputPathOf "t" (convertReqExt
        (some ⟨"a.mp3", "audio/mpeg", [0], 1⟩))) = false ∧
    fsExists (convertBase64Handler (fun _ _ => .ok (some [1])) false "t"
        ⟨some "AAAA", none, none⟩ []).fs
      (outputPathOf "t" (jsDefault none "ogg")) = false :=
  ⟨rfl,
   (c4_cleanup_invariant.1 (fun _ _ => .ok (some [1])) "t" (some "ogg") none
     (some ⟨"a.mp3", "audio/mpeg", [0], 1⟩) [] rfl rfl).1,
   (c4_cleanup_invariant.2 (fun _ _ => .ok (some [1])) "t" (some "AAAA")
     none none [] rfl rfl).2.1⟩
